import Mathlib

/-
Verification development for the transaction analytics dashboard.

The definitions below are a shallow embedding of the normalization,
filtering, deduplication and aggregation pipeline of
src/components/Dashboard.tsx and of the approval-rate computation of
src/components/SmartInsights.tsx.

Modelling conventions:
* Monetary amounts are rationals; JS numbers are used by the source only
  through +, /, comparisons on small values, where rational arithmetic
  agrees.  The one place where IEEE semantics matter (0/0 producing NaN in
  the insight engine) is modelled explicitly with an Option result.
* Absolute instants are integers (UTC epoch milliseconds), exactly as
  moment.utc(x).valueOf() produces them.  The two selectable zones of the
  source, GMT+0 (UTC) and GMT+6 (Asia/Dhaka), are fixed-offset zones over
  the data range, so moment.tz(ts, zone).format(YYYY-MM-DD) is embedded as
  the zone-local epoch-day index and .hour() as the zone-local hour.
* Raw records carry their already-parsed UTC instant; moment date parsing
  takes no timezone input in the source, which the embedding mirrors by
  making the instant a plain field of the raw record.
* The Intl.DisplayNames region lookup is an external collaborator of this
  repository; it is passed to the normalizer as an explicit function
  argument returning none on failure.
-/

namespace BP

/-- JS falsy-coalescing on strings: models the source idiom a or-else b
where the empty string is falsy. -/
def orDefault (a b : String) : String := if a = "" then b else a

/-- ASCII lowercasing; models JS toLowerCase on the ASCII PSP names the
source compares against. -/
def lowerAscii (s : String) : String := String.mk (s.data.map Char.toLower)

/-- ASCII uppercasing; models JS toUpperCase on two-letter country codes. -/
def upperAscii (s : String) : String := String.mk (s.data.map Char.toUpper)

/-- One step of first-occurrence deduplication. -/
def dedupStep {α : Type} [DecidableEq α] (acc : List α) (x : α) : List α :=
  if x ∈ acc then acc else acc ++ [x]

/-- First-occurrence deduplication; models both new Set(...) and the
insertion order of JS object keys built by a reduce. -/
def dedupF {α : Type} [DecidableEq α] (l : List α) : List α :=
  l.foldl dedupStep []

/-- The two selectable timezones of the dashboard. -/
inductive TZ
  | gmt0
  | gmt6
  deriving DecidableEq

/-- Offset from UTC in milliseconds: UTC and Asia/Dhaka (UTC+6, fixed
offset over the data range). -/
def TZ.offsetMs : TZ → Int
  | .gmt0 => 0
  | .gmt6 => 21600000

/-- Zone-local calendar-day index of a UTC instant, embedding
moment.tz(ts, zone).format(YYYY-MM-DD). -/
def localDay (off ts : Int) : Int := (ts + off).fdiv 86400000

/-- Zone-local hour of day (0..23) of a UTC instant, embedding
moment.tz(ts, zone).hour(). -/
def localHour (off ts : Int) : Int := ((ts + off).fmod 86400000).fdiv 3600000

/-- Instant of the start of the given local day, embedding
moment.tz(dateString, zone).startOf(day).valueOf(); d is the epoch-day
index named by the date string. -/
def startBoundary (tz : TZ) (d : Int) : Int := d * 86400000 - tz.offsetMs

/-- Instant of the end of the given local day (inclusive, millisecond
precision), embedding moment.tz(dateString, zone).endOf(day).valueOf(). -/
def endBoundary (tz : TZ) (d : Int) : Int := d * 86400000 - tz.offsetMs + 86399999

/-- A raw uploaded record as consumed by the normalizer.  Missing string
columns are the empty string (the source coerces them with or-else) and
processing_date is the UTC instant moment.utc parses from the raw date
field.  amount is the parseFloat result, none when that yields NaN. -/
structure RawRow where
  id : String := ""
  processing_date : Int := 0
  pspName : String := ""
  country : String := ""
  email : String := ""
  amount : Option ℚ := none
  currency : String := ""
  status : String := ""
  cardType : String := ""
  lastFourDigits : String := ""
  declineReason : String := ""
  midAlias : String := ""
  type : String := ""
  transactionId : String := ""
  pspOrderId : String := ""
  merchantOrderId : String := ""
  bin : String := ""
  paymentMethod : String := ""
  deriving DecidableEq

/-- The canonical transaction entity produced by the normalizer. -/
structure Tx where
  id : String := ""
  processing_ts : Int := 0
  local_date : Int := 0
  pspName : String := ""
  country : String := ""
  country_full : String := ""
  email : String := ""
  amount : ℚ := 0
  currency : String := ""
  status : String := ""
  cardType : String := ""
  lastFourDigits : String := ""
  declineReason : String := ""
  midAlias : String := ""
  type : String := ""
  transactionId : String := ""
  pspOrderId : String := ""
  merchantOrderId : String := ""
  bin : String := ""
  paymentMethod : String := ""
  deriving DecidableEq

/-- Title-casing of a word: first letter upper, rest lower.  Embeds one
replacement step of the source regex replace. -/
def titleCaseWord (w : String) : String :=
  match w.data with
  | [] => ""
  | c :: cs => String.mk (c.toUpper :: cs.map Char.toLower)

/-- Title-casing fallback of toFullCountryName, embedding the source
regex replace with the space character as word boundary. -/
def titleCase (s : String) : String :=
  String.intercalate " " ((s.splitOn " ").map titleCaseWord)

/-- Is the string a two-letter alphabetic code, as tested by the source
with length 2 and the regex of two ASCII letters. -/
def isTwoAlpha (s : String) : Bool := s.length == 2 && s.data.all Char.isAlpha

/-- Country display-name normalization of the source: expand a two-letter
code through the external region lookup, otherwise (or on lookup failure,
where JS treats an empty result as falsy) title-case the raw token. -/
def toFullCountryName (lookup : String → Option String) (v : String) : String :=
  if v = "" then ""
  else
    let v2 := v.trim
    if isTwoAlpha v2 then
      match lookup (upperAscii v2) with
      | some name => if name = "" then titleCase v2 else name
      | none => titleCase v2
    else titleCase v2

/-- The normalizer: maps one raw record (at its position index) to a
canonical transaction, mirroring the rawData.map callback of the source.
Note the merchantOrderId fallback chain of the source is raw
merchantOrderId, then raw id, then a synthesized tx_(index). -/
def normalizeTx (lookup : String → Option String) (tz : TZ) (index : Nat)
    (row : RawRow) : Tx :=
  let processingTs := row.processing_date
  { id := orDefault row.id ("tx_" ++ toString index)
    processing_ts := processingTs
    local_date := localDay tz.offsetMs processingTs
    pspName := row.pspName
    country := row.country
    country_full := toFullCountryName lookup row.country
    email := row.email
    amount := row.amount.getD 0
    currency := orDefault row.currency "USD"
    status := row.status
    cardType := row.cardType
    lastFourDigits := row.lastFourDigits
    declineReason := row.declineReason
    midAlias := row.midAlias
    type := row.type
    transactionId := row.transactionId
    pspOrderId := row.pspOrderId
    merchantOrderId := orDefault row.merchantOrderId
      (orDefault row.id ("tx_" ++ toString index))
    bin := row.bin
    paymentMethod := row.paymentMethod }

/-- The filter state of the dashboard.  An unset date bound (empty string
in the source) is none; a set bound is the epoch-day index named by the
date string.  All set-valued dimensions are lists; the empty list is no
constraint.  The type dimension is carried in the state but never applied
by the source filter, which the embedding mirrors. -/
structure FilterState where
  dateStart : Option Int := none
  dateEnd : Option Int := none
  psp : List String := []
  country : List String := []
  status : List String := []
  cardType : List String := []
  midAlias : List String := []
  type : List String := []
  method : List String := []
  deriving DecidableEq

/-- PSP to method-category mapping of the source: confirmo (any case) is
Crypto, paypal (any case) is P2P, everything else is Card. -/
def pspToMethod (psp : String) : String :=
  let name := lowerAscii psp
  if name = "confirmo" then "Crypto"
  else if name = "paypal" then "P2P"
  else "Card"

/-- Date-range predicate of the source filter: only evaluated when a
bound is set, rejecting instants before the start boundary or after the
end boundary. -/
def datePass (tz : TZ) (F : FilterState) (tx : Tx) : Bool :=
  if F.dateStart.isSome || F.dateEnd.isSome then
    (match F.dateStart with
     | some d => decide (startBoundary tz d ≤ tx.processing_ts)
     | none => true)
    &&
    (match F.dateEnd with
     | some d => decide (tx.processing_ts ≤ endBoundary tz d)
     | none => true)
  else true

/-- Set-membership predicates of the source filter: each non-empty
dimension must contain the transaction value; the method dimension tests
the category derived from the PSP name. -/
def setPass (F : FilterState) (tx : Tx) : Bool :=
  (F.psp.isEmpty || F.psp.contains tx.pspName) &&
  (F.country.isEmpty || F.country.contains tx.country_full) &&
  (F.status.isEmpty || F.status.contains tx.status) &&
  (F.cardType.isEmpty || F.cardType.contains tx.cardType) &&
  (F.midAlias.isEmpty || F.midAlias.contains tx.midAlias) &&
  (F.method.isEmpty || F.method.contains (pspToMethod tx.pspName))

/-- Full predicate of the source filter: logical AND across dimensions. -/
def passes (tz : TZ) (F : FilterState) (tx : Tx) : Bool :=
  datePass tz F tx && setPass F tx

/-- The filter engine: filteredTransactions of the source. -/
def filteredTransactions (tz : TZ) (F : FilterState) (l : List Tx) : List Tx :=
  l.filter (passes tz F)

/-- Status test used throughout the aggregation code. -/
def isApproved (t : Tx) : Bool := t.status == "approved"

/-- Status test used throughout the aggregation code. -/
def isDeclined (t : Tx) : Bool := t.status == "declined"

/-- Does the group contain an approved row (group.some of the source). -/
def hasApproved (g : List Tx) : Bool := g.any isApproved

/-- Does the group contain a declined row (group.some of the source). -/
def hasDeclined (g : List Tx) : Bool := g.any isDeclined

/-- Grouping key used by every rollup: merchantOrderId, falling back to
transactionId, then id (the source expression tx.merchantOrderId or
tx.transactionId or tx.id). -/
def moidKey (t : Tx) : String := orDefault t.merchantOrderId (orDefault t.transactionId t.id)

/-- The distinct grouping keys in first-occurrence order: the keys of the
moidGroups object built by the source reduce. -/
def moidKeys (l : List Tx) : List String := dedupF (l.map moidKey)

/-- The rows of one merchant-order group, in list order: the value the
source reduce accumulates under key k. -/
def groupOf (k : String) (l : List Tx) : List Tx :=
  l.filter (fun t => moidKey t == k)

/-- One step of the KPI accumulation over merchant-order groups: an
approved group counts once as approved and contributes its first approved
row; otherwise a group with a declined row counts once as declined;
otherwise nothing.  Mirrors the Object.values(moidGroups).forEach body. -/
def kpiStep (l : List Tx) (acc : Nat × Nat × List Tx) (k : String) :
    Nat × Nat × List Tx :=
  let g := groupOf k l
  if hasApproved g then
    (acc.1 + 1, acc.2.1, acc.2.2 ++ (g.find? isApproved).toList)
  else if hasDeclined g then (acc.1, acc.2.1 + 1, acc.2.2)
  else acc

/-- Deduplicated tallies of the KPI computation: approved group count,
declined group count, and the list of first-approved representatives. -/
def kpiAccum (l : List Tx) : Nat × Nat × List Tx :=
  (moidKeys l).foldl (kpiStep l) (0, 0, [])

/-- The first-approved representative rows, one per approved
merchant-order group, in group order. -/
def kpiReps (l : List Tx) : List Tx :=
  (moidKeys l).filterMap (fun k => (groupOf k l).find? isApproved)

/-- The KPI snapshot returned by the source kpiData memo. -/
structure Kpi where
  totalTransactions : Nat
  approvalRate : ℚ
  totalAmount : ℚ
  avgAmount : ℚ
  avgAmountLabel : String
  uniqueCountries : Nat
  uniqueEmails : Nat
  deriving DecidableEq

/-- The KPI computation of the source: merchant-order deduplicated
counts, approved-only totals and distinct counts, rate with a zero
default, and the average-amount metric over active days or (for a single
active day) active hours. -/
def kpiData (tz : TZ) (l : List Tx) : Kpi :=
  let acc := kpiAccum l
  let approvedOverall := acc.1
  let declinedOverall := acc.2.1
  let reps := acc.2.2
  let totalRelevant := approvedOverall + declinedOverall
  let totalAmount : ℚ := (reps.map Tx.amount).sum
  let approvalRate : ℚ :=
    if totalRelevant > 0 then ((reps.length : ℚ) / (totalRelevant : ℚ)) * 100 else 0
  let uniqueCountries := (dedupF (reps.map Tx.country_full)).length
  let uniqueEmails := (dedupF (reps.map Tx.email)).length
  let dateKeys := dedupF (reps.map (fun t => localDay tz.offsetMs t.processing_ts))
  let avg : ℚ × String :=
    match dateKeys with
    | [d0] =>
      let onlyDay := reps.filter (fun t => localDay tz.offsetMs t.processing_ts == d0)
      let hours := dedupF (onlyDay.map (fun t => localHour tz.offsetMs t.processing_ts))
      (if hours.length > 0 then totalAmount / (hours.length : ℚ) else 0, "per hour")
    | ds => (if ds.length > 0 then totalAmount / ((ds.length : Nat) : ℚ) else 0, "per day")
  { totalTransactions := approvedOverall
    approvalRate := approvalRate
    totalAmount := totalAmount
    avgAmount := avg.1
    avgAmountLabel := avg.2
    uniqueCountries := uniqueCountries
    uniqueEmails := uniqueEmails }

/-- Generic two-way tally over a list: one counter incremented when P
holds, else the other when Q holds.  Shape of the forEach accumulations
of the source status and per-dimension rollups. -/
def tally2 {α : Type} (P Q : α → Bool) (ks : List α) : Nat × Nat :=
  ks.foldl (fun acc x =>
    if P x then (acc.1 + 1, acc.2)
    else if Q x then (acc.1, acc.2 + 1)
    else acc) (0, 0)

/-- The status-breakdown counts of the source chartData: per
merchant-order group, approved wins, otherwise declined counts. -/
def statusCounts (l : List Tx) : Nat × Nat :=
  tally2 (fun k => hasApproved (groupOf k l)) (fun k => hasDeclined (groupOf k l))
    (moidKeys l)

/-- The keys of the source pspAgg object: every non-empty PSP name
occurring in the rows (the per-group psps lists drop empty names with
filter(Boolean); their union over all groups is the set below). -/
def pspValues (l : List Tx) : List String :=
  dedupF ((l.map Tx.pspName).filter (fun p => p ≠ ""))

/-- The rows of one PSP inside one merchant-order group: the subset the
source handleSubset receives. -/
def pspSub (l : List Tx) (k p : String) : List Tx :=
  (groupOf k l).filter (fun t => t.pspName == p)

/-- The pspAgg counters of the source for one PSP value: per
merchant-order group, the rows of that PSP inside the group are taken as
their own deduplication domain, approved overriding declined. -/
def pspCounts (l : List Tx) (p : String) : Nat × Nat :=
  tally2
    (fun k => hasApproved (pspSub l k p))
    (fun k => hasDeclined (pspSub l k p))
    (moidKeys l)

/-- Sum of approved plus declined counts across all per-PSP rollup rows. -/
def pspTotal (l : List Tx) : Nat :=
  ((pspValues l).map (fun p => (pspCounts l p).1 + (pspCounts l p).2)).sum

/-- IEEE division as observable in the source rate computations: a zero
denominator yields no finite value (NaN here, since every zero
denominator in the source comes with a zero numerator). -/
def jsDiv (a b : ℚ) : Option ℚ := if b = 0 then none else some (a / b)

/-- The raw approved rows of the insight engine (no deduplication). -/
def approvedRows (l : List Tx) : List Tx := l.filter isApproved

/-- The raw declined rows of the insight engine. -/
def declinedRows (l : List Tx) : List Tx := l.filter isDeclined

/-- The approval rate computed inside SmartInsights: guarded only by the
filtered list being non-empty, then approved over approved plus declined,
times 100. -/
def insightApprovalRate (l : List Tx) : Option ℚ :=
  if l.length > 0 then
    (jsDiv ((approvedRows l).length : ℚ)
        (((approvedRows l).length : ℚ) + ((declinedRows l).length : ℚ))).map
      (fun r => r * 100)
  else some 0

/-- A blank transaction from which the concrete examples are built. -/
def baseTx : Tx := {}

/-- First row of the C1 scenario: declined attempt through PSP X. -/
def txC1a : Tx := { baseTx with merchantOrderId := "A", pspName := "X", status := "declined" }

/-- Second row of the C1 scenario: approved attempt through PSP Y with
amount 100. -/
def txC1b : Tx :=
  { baseTx with
    merchantOrderId := "A"
    pspName := "Y"
    status := "approved"
    amount := 100 }

/-- Scenario of C1: one declined and one approved attempt for the same
merchant order. -/
def exC1 : List Tx := [txC1a, txC1b]

/-- Scenario of C2: instant 2024-01-01T19:00:00Z, inside 2024-01-02 in
UTC+6. -/
def txIncl : Tx := { baseTx with merchantOrderId := "I", processing_ts := 1704135600000 }

/-- Scenario of C2: instant 2024-01-01T17:00:00Z, outside 2024-01-02 in
UTC+6. -/
def txExcl : Tx := { baseTx with merchantOrderId := "E", processing_ts := 1704128400000 }

/-- Filter state of the C2 scenario: start and end both 2024-01-02
(epoch day 19724). -/
def f2ex : FilterState := { dateStart := some 19724, dateEnd := some 19724 }

/-- First row of the C4 scenario: approved, 2024-03-01 hour 9 UTC. -/
def txC4a : Tx :=
  { baseTx with
    merchantOrderId := "B1"
    status := "approved"
    amount := 100
    processing_ts := 1709283600000 }

/-- Second row of the C4 scenario: approved, 2024-03-01 hour 14 UTC. -/
def txC4b : Tx :=
  { baseTx with
    merchantOrderId := "B2"
    status := "approved"
    amount := 200
    processing_ts := 1709301600000 }

/-- Scenario of C4: two approved orders on 2024-03-01 (epoch day 19783)
at hours 9 and 14 UTC, amounts 100 and 200. -/
def exC4 : List Tx := [txC4a, txC4b]

/-- Counterexample input of C5: a single approved row whose PSP name is
empty, so the PSP rollup drops it while the KPI counts it. -/
def exC5 : List Tx :=
  [{ baseTx with merchantOrderId := "M", pspName := "", status := "approved", amount := 10 }]

/-- Failing input of C6: one row whose status is neither approved nor
declined. -/
def exC6 : List Tx :=
  [{ baseTx with merchantOrderId := "P", status := "pending" }]

/-- First row of the C10 counterexample input. -/
def txC10a : Tx :=
  { baseTx with
    merchantOrderId := "A"
    status := "approved"
    amount := 5
    country_full := "France"
    email := "a@x.com" }

/-- Second row of the C10 counterexample input: same merchant order,
different country and email. -/
def txC10b : Tx :=
  { baseTx with
    merchantOrderId := "A"
    status := "approved"
    amount := 7
    country_full := "Germany"
    email := "b@x.com" }

/-- Counterexample input of C10: two approved rows for one merchant
order with different countries and emails. -/
def exC10 : List Tx := [txC10a, txC10b]

/-- Counterexample input of C9: a raw record lacking merchantOrderId but
carrying both a transactionId and an id. -/
def rowC9 : RawRow := { id := "R1", transactionId := "T1", merchantOrderId := "" }

/-- F2 refines F by adding one non-empty constraint to a single
set-valued dimension that is unconstrained (empty) in F, leaving every
other field unchanged. -/
def addsOneConstraint (F F2 : FilterState) : Prop :=
  (∃ s, s ≠ ([] : List String) ∧ F.psp = [] ∧ F2 = { F with psp := s }) ∨
  (∃ s, s ≠ ([] : List String) ∧ F.country = [] ∧ F2 = { F with country := s }) ∨
  (∃ s, s ≠ ([] : List String) ∧ F.status = [] ∧ F2 = { F with status := s }) ∨
  (∃ s, s ≠ ([] : List String) ∧ F.cardType = [] ∧ F2 = { F with cardType := s }) ∨
  (∃ s, s ≠ ([] : List String) ∧ F.midAlias = [] ∧ F2 = { F with midAlias := s }) ∨
  (∃ s, s ≠ ([] : List String) ∧ F.type = [] ∧ F2 = { F with type := s }) ∨
  (∃ s, s ≠ ([] : List String) ∧ F.method = [] ∧ F2 = { F with method := s })

/-- The filter state of the C8 scenario: only the method dimension is
constrained, to the single category Crypto. -/
def methodCryptoFilter : FilterState := { method := ["Crypto"] }

/-- Unconstrained filter state. -/
def fw0 : FilterState := {}

/-- Filter state constraining only the PSP dimension. -/
def fw1 : FilterState := { psp := ["X"] }

/-- First row of the C5 witness input: approved attempt, PSP X. -/
def txC5a : Tx := { baseTx with merchantOrderId := "M1", pspName := "X", status := "approved" }

/-- Second row of the C5 witness input: declined retry of the same order
through the same PSP. -/
def txC5b : Tx := { baseTx with merchantOrderId := "M1", pspName := "X", status := "declined" }

/-- Third row of the C5 witness input: a declined order through PSP Y. -/
def txC5c : Tx := { baseTx with merchantOrderId := "M2", pspName := "Y", status := "declined" }

/-- Witness input of C5: each merchant-order group carries exactly one
non-empty PSP name. -/
def exC5w : List Tx := [txC5a, txC5b, txC5c]

/-- Membership through one deduplication step. -/
theorem mem_dedupStep {α : Type} [DecidableEq α] (acc : List α) (x a : α) :
    a ∈ dedupStep acc x ↔ a ∈ acc ∨ a = x := by
  by_cases hx : x ∈ acc
  · simp only [dedupStep, if_pos hx]
    exact ⟨fun h => Or.inl h, fun h => h.elim id (fun he => he ▸ hx)⟩
  · simp [dedupStep, if_neg hx]

/-- Membership in the deduplication fold, generalized over the
accumulator. -/
theorem dedupF_go_mem {α : Type} [DecidableEq α] (l : List α) :
    ∀ (acc : List α) (a : α), a ∈ l.foldl dedupStep acc ↔ a ∈ acc ∨ a ∈ l := by
  induction l with
  | nil => intro acc a; simp
  | cons x xs ih =>
    intro acc a
    rw [List.foldl_cons, ih, mem_dedupStep]
    simp only [List.mem_cons]
    tauto

/-- Deduplication preserves membership. -/
theorem mem_dedupF {α : Type} [DecidableEq α] (l : List α) (a : α) :
    a ∈ dedupF l ↔ a ∈ l := by
  simpa [dedupF] using dedupF_go_mem l [] a

/-- One deduplication step preserves nodup. -/
theorem nodup_dedupStep {α : Type} [DecidableEq α] (acc : List α) (x : α)
    (h : acc.Nodup) : (dedupStep acc x).Nodup := by
  by_cases hx : x ∈ acc
  · simpa only [dedupStep, if_pos hx] using h
  · simp only [dedupStep, if_neg hx]
    have hd : acc.Disjoint [x] := by
      intro b hb hbx
      rw [List.mem_singleton] at hbx
      exact hx (hbx ▸ hb)
    exact List.Nodup.append h (List.nodup_singleton x) hd

/-- The deduplication fold keeps the accumulator duplicate-free. -/
theorem dedupF_go_nodup {α : Type} [DecidableEq α] (l : List α) :
    ∀ acc : List α, acc.Nodup → (l.foldl dedupStep acc).Nodup := by
  induction l with
  | nil => intro acc h; simpa using h
  | cons x xs ih => intro acc h; exact ih (dedupStep acc x) (nodup_dedupStep acc x h)

/-- The deduplicated list has no duplicates. -/
theorem nodup_dedupF {α : Type} [DecidableEq α] (l : List α) : (dedupF l).Nodup :=
  dedupF_go_nodup l [] List.nodup_nil

/-- Length of a filtered cons in indicator form. -/
theorem length_filter_cons {α : Type} (p : α → Bool) (x : α) (xs : List α) :
    ((x :: xs).filter p).length = (if p x then 1 else 0) + (xs.filter p).length := by
  by_cases h : p x <;> simp [List.filter_cons, h] <;> omega

/-- The two-way tally is the pair of filter lengths, generalized over the
starting counters. -/
theorem tally2_go_eq {α : Type} (P Q : α → Bool) (ks : List α) :
    ∀ a b : Nat,
      ks.foldl (fun acc x =>
        if P x then (acc.1 + 1, acc.2)
        else if Q x then (acc.1, acc.2 + 1)
        else acc) (a, b)
      = (a + (ks.filter P).length, b + (ks.filter (fun x => !P x && Q x)).length) := by
  induction ks with
  | nil => intro a b; simp
  | cons x xs ih =>
    intro a b
    rw [List.foldl_cons]
    cases hP : P x with
    | true =>
      simp [hP, ih, List.filter_cons, Prod.mk.injEq] <;> omega
    | false =>
      cases hQ : Q x with
      | true =>
        simp [hP, hQ, ih, List.filter_cons, Prod.mk.injEq] <;> omega
      | false =>
        simp [hP, hQ, ih, List.filter_cons, Prod.mk.injEq] <;> omega

/-- The two-way tally counts the P-elements and the Q-but-not-P
elements. -/
theorem tally2_eq {α : Type} (P Q : α → Bool) (ks : List α) :
    tally2 P Q ks
      = ((ks.filter P).length, (ks.filter (fun x => !P x && Q x)).length) := by
  unfold tally2
  rw [tally2_go_eq]
  simp

/-- If no element of the list is approved, find? yields nothing. -/
theorem find?_isApproved_none (g : List Tx) (h : hasApproved g = false) :
    g.find? isApproved = none := by
  rw [List.find?_eq_none]
  intro x hx hpx
  rw [hasApproved, List.any_eq_false] at h
  exact h x hx hpx

/-- The KPI fold is the triple of filter lengths and the first-approved
representatives, generalized over the accumulator. -/
theorem kpiFold_eq (l : List Tx) (ks : List String) :
    ∀ (a d : Nat) (r : List Tx),
      ks.foldl (kpiStep l) (a, d, r)
        = (a + (ks.filter (fun k => hasApproved (groupOf k l))).length,
           d + (ks.filter (fun k =>
              !hasApproved (groupOf k l) && hasDeclined (groupOf k l))).length,
           r ++ ks.filterMap (fun k => (groupOf k l).find? isApproved)) := by
  induction ks with
  | nil => intro a d r; simp
  | cons k ks ih =>
    intro a d r
    rw [List.foldl_cons]
    by_cases hA : hasApproved (groupOf k l)
    · have hstep : kpiStep l (a, d, r) k
          = (a + 1, d, r ++ ((groupOf k l).find? isApproved).toList) := by
        simp [kpiStep, hA]
      rw [hstep, ih]
      have hfm : (k :: ks).filterMap (fun k => (groupOf k l).find? isApproved)
          = ((groupOf k l).find? isApproved).toList
            ++ ks.filterMap (fun k => (groupOf k l).find? isApproved) := by
        rw [List.filterMap_cons]
        cases (groupOf k l).find? isApproved <;> simp
      rw [hfm]
      simp only [length_filter_cons, hA, if_true, Bool.not_true, Bool.false_and,
        length_filter_cons, Bool.false_eq_true, if_false, List.append_assoc]
      simp only [Prod.mk.injEq, List.append_assoc, and_true, true_and]
      constructor <;> omega
    · have hnone : (groupOf k l).find? isApproved = none :=
        find?_isApproved_none _ (by simpa using hA)
      have hfm : (k :: ks).filterMap (fun k => (groupOf k l).find? isApproved)
          = ks.filterMap (fun k => (groupOf k l).find? isApproved) := by
        rw [List.filterMap_cons, hnone]
      by_cases hD : hasDeclined (groupOf k l)
      · have hstep : kpiStep l (a, d, r) k = (a, d + 1, r) := by
          simp [kpiStep, hA, hD]
        rw [hstep, ih, hfm]
        simp only [length_filter_cons, hA, hD, Bool.false_eq_true, if_false,
          Bool.not_false, Bool.true_and, if_true]
        simp only [Prod.mk.injEq, and_true, true_and]
        constructor <;> omega
      · have hstep : kpiStep l (a, d, r) k = (a, d, r) := by
          simp [kpiStep, hA, hD]
        rw [hstep, ih, hfm]
        simp [length_filter_cons, hA, hD]

/-- The KPI accumulator characterized: approved group count, declined
group count among non-approved groups, and the representatives list. -/
theorem kpiAccum_eq (l : List Tx) :
    kpiAccum l
      = (((moidKeys l).filter (fun k => hasApproved (groupOf k l))).length,
         ((moidKeys l).filter (fun k =>
            !hasApproved (groupOf k l) && hasDeclined (groupOf k l))).length,
         kpiReps l) := by
  unfold kpiAccum kpiReps
  rw [kpiFold_eq]
  simp

/-- Sums of pointwise added maps split. -/
theorem sum_map_add {α : Type} (f g : α → Nat) (l : List α) :
    (l.map (fun x => f x + g x)).sum = (l.map f).sum + (l.map g).sum := by
  induction l with
  | nil => simp
  | cons x xs ih => simp [ih]; omega

/-- A sum of indicators is a filter length. -/
theorem sum_map_indicator {α : Type} (p : α → Bool) (l : List α) :
    (l.map (fun x => if p x then 1 else 0)).sum = (l.filter p).length := by
  induction l with
  | nil => simp
  | cons x xs ih => by_cases h : p x <;> simp [List.filter_cons, h, ih] <;> omega

/-- Double counting: summing inner filter lengths over the outer list
equals summing outer filter lengths over the inner list. -/
theorem sum_swap_count {α β : Type} (Q : α → β → Bool) (ps : List α) :
    ∀ ks : List β,
      (ps.map (fun p => (ks.filter (fun k => Q p k)).length)).sum
        = (ks.map (fun k => (ps.filter (fun p => Q p k)).length)).sum := by
  intro ks
  induction ks with
  | nil => simp
  | cons k ks ih =>
    have hstep : (ps.map (fun p => (((k :: ks)).filter (fun j => Q p j)).length))
        = ps.map (fun p => (if Q p k then 1 else 0) + (ks.filter (fun j => Q p j)).length) := by
      exact List.map_congr_left (fun p _ => length_filter_cons _ _ _)
    rw [hstep, sum_map_add, sum_map_indicator, ih]
    simp

/-- In a duplicate-free list, exactly one element equals a given member. -/
theorem length_filter_eq_one_of_nodup {α : Type} [DecidableEq α] (l : List α)
    (h : l.Nodup) (a : α) (ha : a ∈ l) :
    (l.filter (fun x => x == a)).length = 1 := by
  induction l with
  | nil => cases ha
  | cons x xs ih =>
    rw [List.nodup_cons] at h
    rcases List.mem_cons.1 ha with hax | hax
    · have hxs : xs.filter (fun y => y == a) = [] := by
        rw [List.filter_eq_nil_iff]
        intro b hb
        simp only [beq_iff_eq]
        intro hba
        exact h.1 (hax ▸ hba ▸ hb)
      simp [List.filter_cons, hax.symm, hxs]
    · have hxa : (x == a) = false := by
        simp only [beq_eq_false_iff_ne]
        intro hxe
        exact h.1 (hxe ▸ hax)
      simp [List.filter_cons, hxa, ih h.2 hax]

/-- A pointwise stronger boolean predicate filters out no more elements. -/
theorem length_filter_mono {α : Type} (p q : α → Bool) (l : List α)
    (h : ∀ a ∈ l, p a = true → q a = true) :
    (l.filter p).length ≤ (l.filter q).length := by
  rw [← List.countP_eq_length_filter, ← List.countP_eq_length_filter]
  exact List.countP_mono_left h

/-- orDefault keeps a non-empty first argument. -/
theorem orDefault_of_ne (a b : String) (ha : a ≠ "") : orDefault a b = a := by
  simp [orDefault, ha]

/-- orDefault with a non-empty fallback is non-empty. -/
theorem orDefault_ne_empty (a b : String) (hb : b ≠ "") : orDefault a b ≠ "" := by
  unfold orDefault
  split
  · exact hb
  · assumption

/-- Synthesized transaction identifiers are never the empty string. -/
theorem tx_synth_ne_empty (i : Nat) : ("tx_" ++ toString i) ≠ "" := by
  intro h
  have hlen := congrArg String.length h
  rw [String.length_append] at hlen
  have h3 : ("tx_" : String).length = 3 := by decide
  have h0 : ("" : String).length = 0 := by decide
  rw [h3, h0] at hlen
  omega

/-- C3: for every raw record and any two timezone choices, the
normalized transaction has the same absolute processing instant and the
same value of every field other than the derived local-date label. -/
theorem c3_timezone_label_only :
    ∀ (lookup : String → Option String) (tz1 tz2 : TZ) (i : Nat) (row : RawRow),
      (normalizeTx lookup tz1 i row).processing_ts
          = (normalizeTx lookup tz2 i row).processing_ts
      ∧ (normalizeTx lookup tz1 i row).id = (normalizeTx lookup tz2 i row).id
      ∧ (normalizeTx lookup tz1 i row).pspName = (normalizeTx lookup tz2 i row).pspName
      ∧ (normalizeTx lookup tz1 i row).country = (normalizeTx lookup tz2 i row).country
      ∧ (normalizeTx lookup tz1 i row).country_full
          = (normalizeTx lookup tz2 i row).country_full
      ∧ (normalizeTx lookup tz1 i row).email = (normalizeTx lookup tz2 i row).email
      ∧ (normalizeTx lookup tz1 i row).amount = (normalizeTx lookup tz2 i row).amount
      ∧ (normalizeTx lookup tz1 i row).currency = (normalizeTx lookup tz2 i row).currency
      ∧ (normalizeTx lookup tz1 i row).status = (normalizeTx lookup tz2 i row).status
      ∧ (normalizeTx lookup tz1 i row).cardType = (normalizeTx lookup tz2 i row).cardType
      ∧ (normalizeTx lookup tz1 i row).lastFourDigits
          = (normalizeTx lookup tz2 i row).lastFourDigits
      ∧ (normalizeTx lookup tz1 i row).declineReason
          = (normalizeTx lookup tz2 i row).declineReason
      ∧ (normalizeTx lookup tz1 i row).midAlias = (normalizeTx lookup tz2 i row).midAlias
      ∧ (normalizeTx lookup tz1 i row).type = (normalizeTx lookup tz2 i row).type
      ∧ (normalizeTx lookup tz1 i row).transactionId
          = (normalizeTx lookup tz2 i row).transactionId
      ∧ (normalizeTx lookup tz1 i row).pspOrderId
          = (normalizeTx lookup tz2 i row).pspOrderId
      ∧ (normalizeTx lookup tz1 i row).merchantOrderId
          = (normalizeTx lookup tz2 i row).merchantOrderId
      ∧ (normalizeTx lookup tz1 i row).bin = (normalizeTx lookup tz2 i row).bin
      ∧ (normalizeTx lookup tz1 i row).paymentMethod
          = (normalizeTx lookup tz2 i row).paymentMethod := by
  intro lookup tz1 tz2 i row
  exact ⟨rfl, rfl, rfl, rfl, rfl, rfl, rfl, rfl, rfl, rfl, rfl, rfl, rfl, rfl, rfl,
    rfl, rfl, rfl, rfl⟩

/-- C3 witness: the instant of a concrete normalized record is the same
under both zones. -/
theorem c3_timezone_label_only_witness :
    (normalizeTx (fun _ => none) TZ.gmt0 0 rowC9).processing_ts
      = (normalizeTx (fun _ => none) TZ.gmt6 0 rowC9).processing_ts :=
  (c3_timezone_label_only (fun _ => none) TZ.gmt0 TZ.gmt6 0 rowC9).1

/-- C9 counterexample: the raw record rowC9 lacks merchantOrderId and
carries transactionId T1, yet its normalized grouping key is its id R1,
not T1 as the claim states. -/
theorem c9_fallback_counterexample :
    (normalizeTx (fun _ => none) TZ.gmt0 0 rowC9).merchantOrderId = "R1"
    ∧ moidKey (normalizeTx (fun _ => none) TZ.gmt0 0 rowC9) = "R1"
    ∧ rowC9.transactionId = "T1"
    ∧ rowC9.merchantOrderId = ""
    ∧ ("R1" : String) ≠ "T1" := by
  refine ⟨by decide, by decide, rfl, rfl, by decide⟩

/-- C9 amended: the normalized merchantOrderId falls back to the raw
record id, then to a synthesized tx_(index) name, never to
transactionId; and every rollup groups the normalized row under exactly
that value. -/
theorem c9_moid_fallback :
    ∀ (lookup : String → Option String) (tz : TZ) (i : Nat) (row : RawRow),
      (normalizeTx lookup tz i row).merchantOrderId
          = orDefault row.merchantOrderId (orDefault row.id ("tx_" ++ toString i))
      ∧ moidKey (normalizeTx lookup tz i row)
          = orDefault row.merchantOrderId (orDefault row.id ("tx_" ++ toString i)) := by
  intro lookup tz i row
  refine ⟨rfl, ?_⟩
  have hne : (normalizeTx lookup tz i row).merchantOrderId ≠ "" :=
    orDefault_ne_empty _ _ (orDefault_ne_empty _ _ (tx_synth_ne_empty i))
  rw [moidKey, orDefault_of_ne _ _ hne]
  rfl

/-- C9 witness: a concrete record with no merchantOrderId and a
non-empty id groups under that id. -/
theorem c9_moid_fallback_witness :
    moidKey (normalizeTx (fun _ => none) TZ.gmt0 0 rowC9)
      = orDefault rowC9.merchantOrderId (orDefault rowC9.id ("tx_" ++ toString 0)) :=
  (c9_moid_fallback (fun _ => none) TZ.gmt0 0 rowC9).2

/-- C10 counterexample: with two approved rows for one merchant order in
different countries and with different emails, the KPI distinct counts
are 1, while the distinct counts across all approved transactions of the
filtered set are 2. -/
theorem c10_unique_counterexample :
    (kpiData TZ.gmt0 exC10).uniqueCountries = 1
    ∧ (dedupF ((exC10.filter isApproved).map Tx.country_full)).length = 2
    ∧ (kpiData TZ.gmt0 exC10).uniqueCountries
        ≠ (dedupF ((exC10.filter isApproved).map Tx.country_full)).length
    ∧ (kpiData TZ.gmt0 exC10).uniqueEmails = 1
    ∧ (dedupF ((exC10.filter isApproved).map Tx.email)).length = 2
    ∧ (kpiData TZ.gmt0 exC10).uniqueEmails
        ≠ (dedupF ((exC10.filter isApproved).map Tx.email)).length := by
  refine ⟨by decide, by decide, by decide, by decide, by decide, by decide⟩

/-- C10 amended: uniqueCountries and uniqueCustomers are the distinct
normalized-country and distinct-email counts across the deduplicated
first-approved representatives of the merchant-order groups. -/
theorem c10_unique_over_reps :
    ∀ (tz : TZ) (l : List Tx),
      (kpiData tz l).uniqueCountries
          = (dedupF ((kpiReps l).map Tx.country_full)).length
      ∧ (kpiData tz l).uniqueEmails = (dedupF ((kpiReps l).map Tx.email)).length := by
  intro tz l
  constructor <;> · simp only [kpiData]; rw [kpiAccum_eq]

/-- C10 witness: the amended characterization at a concrete input. -/
theorem c10_unique_over_reps_witness :
    (kpiData TZ.gmt0 exC10).uniqueCountries
      = (dedupF ((kpiReps exC10).map Tx.country_full)).length :=
  (c10_unique_over_reps TZ.gmt0 exC10).1

/-- C1: grouping by merchant order, every group with an approved row
contributes exactly one approved count and the amount of its first
approved row; otherwise a group with a declined row contributes exactly
one declined count; this holds for the KPI totals and for the status
breakdown, and on the concrete two-row scenario (declined through X,
approved through Y with amount 100) yields approvedCount 1, declinedCount
0, totalApprovedAmount 100 and approvalRate 100. -/
theorem c1_dedup_override :
    (∀ (tz : TZ) (l : List Tx),
        (kpiData tz l).totalTransactions
            = ((moidKeys l).filter (fun k => hasApproved (groupOf k l))).length
      ∧ (kpiData tz l).totalAmount = ((kpiReps l).map Tx.amount).sum
      ∧ statusCounts l
          = (((moidKeys l).filter (fun k => hasApproved (groupOf k l))).length,
             ((moidKeys l).filter (fun k =>
                !hasApproved (groupOf k l) && hasDeclined (groupOf k l))).length))
    ∧ (kpiData TZ.gmt0 exC1).totalTransactions = 1
    ∧ statusCounts exC1 = (1, 0)
    ∧ (kpiData TZ.gmt0 exC1).totalAmount = 100
    ∧ (kpiData TZ.gmt0 exC1).approvalRate = 100 := by
  have hx : kpiAccum exC1 = (1, 0, [txC1b]) := by decide
  refine ⟨?_, by decide, by decide, ?_, ?_⟩
  · intro tz l
    refine ⟨?_, ?_, ?_⟩
    · simp only [kpiData]; rw [kpiAccum_eq]
    · simp only [kpiData]; rw [kpiAccum_eq]
    · rw [statusCounts, tally2_eq]
  · simp only [kpiData, hx]
    norm_num [txC1b, baseTx]
  · simp only [kpiData, hx]
    norm_num

/-- C1 witness: the general characterization applied at the concrete
scenario list. -/
theorem c1_dedup_override_witness :
    (kpiData TZ.gmt0 exC1).totalTransactions
      = ((moidKeys exC1).filter (fun k => hasApproved (groupOf k exC1))).length :=
  (c1_dedup_override.1 TZ.gmt0 exC1).1

/-- The date predicate passes exactly the instants inside the inclusive
boundary interval, each side unconstrained when its bound is absent. -/
theorem datePass_iff (tz : TZ) (F : FilterState) (tx : Tx) :
    datePass tz F tx = true
      ↔ (∀ d, F.dateStart = some d → startBoundary tz d ≤ tx.processing_ts)
        ∧ (∀ d, F.dateEnd = some d → tx.processing_ts ≤ endBoundary tz d) := by
  cases hs : F.dateStart <;> cases he : F.dateEnd <;>
    simp [datePass, hs, he]

/-- C2: a transaction survives the filter exactly when it is in the
input, its instant lies between the start-of-day instant of the start
bound and the end-of-day instant of the end bound (computed in the
active zone, absent bounds unconstrained), and the set-valued dimensions
accept it; concretely, for 2024-01-02 in UTC+6 the instant
2024-01-01T19:00:00Z is kept and 2024-01-01T17:00:00Z is dropped. -/
theorem c2_date_range :
    (∀ (tz : TZ) (F : FilterState) (l : List Tx) (tx : Tx),
        tx ∈ filteredTransactions tz F l
          ↔ tx ∈ l
            ∧ (∀ d, F.dateStart = some d → startBoundary tz d ≤ tx.processing_ts)
            ∧ (∀ d, F.dateEnd = some d → tx.processing_ts ≤ endBoundary tz d)
            ∧ setPass F tx = true)
    ∧ filteredTransactions TZ.gmt6 f2ex [txIncl, txExcl] = [txIncl]
    ∧ txIncl.processing_ts = 1704135600000
    ∧ txExcl.processing_ts = 1704128400000
    ∧ startBoundary TZ.gmt6 19724 = 1704132000000
    ∧ endBoundary TZ.gmt6 19724 = 1704218399999 := by
  refine ⟨?_, by decide, by decide, by decide, by decide, by decide⟩
  intro tz F l tx
  rw [filteredTransactions, List.mem_filter, passes, Bool.and_eq_true, datePass_iff]
  tauto

/-- C2 witness: the membership characterization applied to the kept
transaction of the concrete scenario. -/
theorem c2_date_range_witness :
    txIncl ∈ filteredTransactions TZ.gmt6 f2ex [txIncl, txExcl] :=
  (c2_date_range.1 TZ.gmt6 f2ex [txIncl, txExcl] txIncl).2
    ⟨by decide, by decide, by decide, by decide⟩

/-- C6: the KPI approval rate defaults to 0 on a zero denominator and
every aggregate is zero on the empty list; but the insight engine rate
is guarded only by list non-emptiness, so the non-empty all-other-status
input exC6 drives it into a 0/0 division (no finite value) instead of
the defined default 0 the specification requires. -/
theorem c6_rate_totality :
    (∀ (tz : TZ) (l : List Tx),
        (kpiAccum l).1 + (kpiAccum l).2.1 = 0 → (kpiData tz l).approvalRate = 0)
    ∧ (∀ tz : TZ,
        kpiData tz []
          = { totalTransactions := 0, approvalRate := 0, totalAmount := 0, avgAmount := 0,
              avgAmountLabel := "per day", uniqueCountries := 0, uniqueEmails := 0 })
    ∧ statusCounts [] = (0, 0)
    ∧ exC6 ≠ []
    ∧ insightApprovalRate exC6 = none := by
  refine ⟨?_, ?_, by decide, by decide, ?_⟩
  · intro tz l h
    simp only [kpiData]
    rw [h]
    norm_num
  · intro tz
    have h : kpiAccum [] = (0, 0, []) := by decide
    simp only [kpiData, h]
    norm_num [moidKeys, dedupF]
  · have ha : (approvedRows exC6).length = 0 := by decide
    have hb : (declinedRows exC6).length = 0 := by decide
    have hc : exC6.length > 0 := by decide
    simp only [insightApprovalRate, ha, hb, jsDiv, if_pos hc]
    norm_num

/-- C6 witness: the zero-denominator default of the KPI rate at the
concrete all-other-status input. -/
theorem c6_rate_totality_witness :
    (kpiData TZ.gmt0 exC6).approvalRate = 0 :=
  c6_rate_totality.1 TZ.gmt0 exC6 (by decide)

/-- The set-valued predicate decomposed dimension by dimension: each
dimension is unconstrained when empty, otherwise an any-of membership. -/
theorem setPass_iff (F : FilterState) (tx : Tx) :
    setPass F tx = true
      ↔ (F.psp = [] ∨ F.psp.contains tx.pspName = true)
        ∧ (F.country = [] ∨ F.country.contains tx.country_full = true)
        ∧ (F.status = [] ∨ F.status.contains tx.status = true)
        ∧ (F.cardType = [] ∨ F.cardType.contains tx.cardType = true)
        ∧ (F.midAlias = [] ∨ F.midAlias.contains tx.midAlias = true)
        ∧ (F.method = [] ∨ F.method.contains (pspToMethod tx.pspName) = true) := by
  simp [setPass, Bool.and_eq_true, Bool.or_eq_true, List.isEmpty_iff, and_assoc]

/-- C7: adding one non-empty constraint to a previously unconstrained
set-valued dimension never increases the number of filtered
transactions. -/
theorem c7_filter_monotone :
    ∀ (tz : TZ) (F F2 : FilterState) (l : List Tx),
      addsOneConstraint F F2 →
      (filteredTransactions tz F2 l).length ≤ (filteredTransactions tz F l).length := by
  intro tz F F2 l h
  unfold filteredTransactions
  apply length_filter_mono
  intro tx _ htx
  rw [passes, Bool.and_eq_true] at htx ⊢
  obtain ⟨hdate, hset⟩ := htx
  rcases h with ⟨s, hs, hF, rfl⟩ | ⟨s, hs, hF, rfl⟩ | ⟨s, hs, hF, rfl⟩ |
    ⟨s, hs, hF, rfl⟩ | ⟨s, hs, hF, rfl⟩ | ⟨s, hs, hF, rfl⟩ | ⟨s, hs, hF, rfl⟩
  · obtain ⟨h1, h2, h3, h4, h5, h6⟩ := (setPass_iff _ _).1 hset
    exact ⟨hdate, (setPass_iff _ _).2 ⟨Or.inl hF, h2, h3, h4, h5, h6⟩⟩
  · obtain ⟨h1, h2, h3, h4, h5, h6⟩ := (setPass_iff _ _).1 hset
    exact ⟨hdate, (setPass_iff _ _).2 ⟨h1, Or.inl hF, h3, h4, h5, h6⟩⟩
  · obtain ⟨h1, h2, h3, h4, h5, h6⟩ := (setPass_iff _ _).1 hset
    exact ⟨hdate, (setPass_iff _ _).2 ⟨h1, h2, Or.inl hF, h4, h5, h6⟩⟩
  · obtain ⟨h1, h2, h3, h4, h5, h6⟩ := (setPass_iff _ _).1 hset
    exact ⟨hdate, (setPass_iff _ _).2 ⟨h1, h2, h3, Or.inl hF, h5, h6⟩⟩
  · obtain ⟨h1, h2, h3, h4, h5, h6⟩ := (setPass_iff _ _).1 hset
    exact ⟨hdate, (setPass_iff _ _).2 ⟨h1, h2, h3, h4, Or.inl hF, h6⟩⟩
  · exact ⟨hdate, hset⟩
  · obtain ⟨h1, h2, h3, h4, h5, h6⟩ := (setPass_iff _ _).1 hset
    exact ⟨hdate, (setPass_iff _ _).2 ⟨h1, h2, h3, h4, h5, Or.inl hF⟩⟩

/-- C7 witness: constraining the PSP dimension on the concrete scenario
list does not grow the filtered result. -/
theorem c7_filter_monotone_witness :
    (filteredTransactions TZ.gmt0 fw1 exC1).length
      ≤ (filteredTransactions TZ.gmt0 fw0 exC1).length :=
  c7_filter_monotone TZ.gmt0 fw0 fw1 exC1 (Or.inl ⟨["X"], by decide, rfl, rfl⟩)

/-- C8: the PSP-to-method mapping is total with confirmo mapping to
Crypto and paypal to P2P case-insensitively and every other name to
Card; and filtering with the method set Crypto keeps exactly the
transactions whose PSP maps to Crypto. -/
theorem c8_method_filter :
    (∀ s : String, lowerAscii s = "confirmo" → pspToMethod s = "Crypto")
    ∧ (∀ s : String, lowerAscii s = "paypal" → pspToMethod s = "P2P")
    ∧ (∀ s : String,
        lowerAscii s ≠ "confirmo" → lowerAscii s ≠ "paypal" → pspToMethod s = "Card")
    ∧ ∀ (tz : TZ) (l : List Tx),
        filteredTransactions tz methodCryptoFilter l
          = l.filter (fun t => pspToMethod t.pspName = "Crypto") := by
  refine ⟨?_, ?_, ?_, ?_⟩
  · intro s h; simp [pspToMethod, h]
  · intro s h; simp [pspToMethod, h]
  · intro s h1 h2; simp [pspToMethod, h1, h2]
  · intro tz l
    unfold filteredTransactions
    apply List.filter_congr
    intro t _
    simp [passes, datePass, setPass, methodCryptoFilter]

/-- C8 witness: the mapping at concrete PSP names of each category. -/
theorem c8_method_filter_witness :
    pspToMethod "CONFIRMO" = "Crypto"
    ∧ pspToMethod "PayPal" = "P2P"
    ∧ pspToMethod "Stripe" = "Card" :=
  ⟨c8_method_filter.1 "CONFIRMO" (by decide),
   c8_method_filter.2.1 "PayPal" (by decide),
   c8_method_filter.2.2.1 "Stripe" (by decide) (by decide)⟩

/-- C4: when the deduplicated approved transactions fall on exactly one
local calendar day, averageAmount is the total approved amount divided
by the count of distinct active hours (label per hour); over more than
one active day it is the total divided by the count of distinct active
days (label per day); with no active day it is 0; and the concrete
single-day scenario with hours 9 and 14 totalling 300 yields 150 per
hour. -/
theorem c4_average_amount :
    (∀ (tz : TZ) (l : List Tx),
       ((dedupF ((kpiReps l).map (fun t => localDay tz.offsetMs t.processing_ts))).length = 1 →
          (kpiData tz l).avgAmount
            = (kpiData tz l).totalAmount
              / ((dedupF ((kpiReps l).map
                    (fun t => localHour tz.offsetMs t.processing_ts))).length : ℚ)
          ∧ (kpiData tz l).avgAmountLabel = "per hour")
       ∧ (1 < (dedupF ((kpiReps l).map (fun t => localDay tz.offsetMs t.processing_ts))).length →
          (kpiData tz l).avgAmount
            = (kpiData tz l).totalAmount
              / ((dedupF ((kpiReps l).map
                    (fun t => localDay tz.offsetMs t.processing_ts))).length : ℚ)
          ∧ (kpiData tz l).avgAmountLabel = "per day")
       ∧ ((dedupF ((kpiReps l).map (fun t => localDay tz.offsetMs t.processing_ts))).length = 0 →
          (kpiData tz l).avgAmount = 0))
    ∧ (kpiData TZ.gmt0 exC4).avgAmount = 150
    ∧ (kpiData TZ.gmt0 exC4).avgAmountLabel = "per hour"
    ∧ (kpiData TZ.gmt0 exC4).totalAmount = 300 := by
  refine ⟨?_, ?_, ?_, ?_⟩
  · intro tz l
    rcases hdk : dedupF ((kpiReps l).map (fun t => localDay tz.offsetMs t.processing_ts))
      with _ | ⟨d0, _ | ⟨d1, ds⟩⟩
    · refine ⟨?_, ?_, ?_⟩
      · intro h1; rw [hdk] at h1; simp at h1
      · intro h2; rw [hdk] at h2; simp at h2
      · intro _
        simp only [kpiData]
        rw [kpiAccum_eq, hdk]
        simp
    · have hmem : ∀ t ∈ kpiReps l, localDay tz.offsetMs t.processing_ts = d0 := by
        intro t ht
        have h1 : localDay tz.offsetMs t.processing_ts
            ∈ dedupF ((kpiReps l).map (fun t => localDay tz.offsetMs t.processing_ts)) :=
          (mem_dedupF _ _).2 (List.mem_map_of_mem _ ht)
        rw [hdk] at h1
        simpa using h1
      have hfil : (kpiReps l).filter
          (fun t => localDay tz.offsetMs t.processing_ts == d0) = kpiReps l := by
        rw [List.filter_eq_self]
        intro t ht
        simp [hmem t ht]
      have hne : kpiReps l ≠ [] := by
        intro h0
        rw [h0] at hdk
        simp [dedupF] at hdk
      have hpos : 0 < (dedupF ((kpiReps l).map
          (fun t => localHour tz.offsetMs t.processing_ts))).length := by
        obtain ⟨t0, ht0⟩ := List.exists_mem_of_ne_nil _ hne
        have hm : localHour tz.offsetMs t0.processing_ts
            ∈ dedupF ((kpiReps l).map (fun t => localHour tz.offsetMs t.processing_ts)) :=
          (mem_dedupF _ _).2 (List.mem_map_of_mem _ ht0)
        exact List.length_pos.2 (List.ne_nil_of_mem hm)
      refine ⟨?_, ?_, ?_⟩
      · intro _
        simp only [kpiData]
        rw [kpiAccum_eq, hdk]
        simp only []
        rw [hfil]
        constructor
        · rw [if_pos hpos]
        · trivial
      · intro h2; rw [hdk] at h2; simp at h2
      · intro h3; rw [hdk] at h3; simp at h3
    · refine ⟨?_, ?_, ?_⟩
      · intro h1; rw [hdk] at h1; simp at h1
      · intro _
        simp only [kpiData]
        rw [kpiAccum_eq, hdk]
        simp only []
        constructor
        · have hpos : (d0 :: d1 :: ds).length > 0 := by simp
          rw [if_pos hpos]
        · trivial
      · intro h3; rw [hdk] at h3; simp at h3
  · have h : kpiAccum exC4 = (2, 0, [txC4a, txC4b]) := by decide
    have hd : dedupF ([txC4a, txC4b].map
        (fun t => localDay TZ.gmt0.offsetMs t.processing_ts)) = [19783] := by decide
    have hh : dedupF (([txC4a, txC4b].filter
        (fun t => localDay TZ.gmt0.offsetMs t.processing_ts == (19783 : Int))).map
        (fun t => localHour TZ.gmt0.offsetMs t.processing_ts)) = [9, 14] := by decide
    simp only [kpiData, h, hd, hh]
    norm_num [txC4a, txC4b, baseTx]
  · have h : kpiAccum exC4 = (2, 0, [txC4a, txC4b]) := by decide
    have hd : dedupF ([txC4a, txC4b].map
        (fun t => localDay TZ.gmt0.offsetMs t.processing_ts)) = [19783] := by decide
    simp only [kpiData, h, hd]
  · have h : kpiAccum exC4 = (2, 0, [txC4a, txC4b]) := by decide
    simp only [kpiData, h]
    norm_num [txC4a, txC4b, baseTx]

/-- C4 witness: the single-active-day branch applied at the concrete
scenario. -/
theorem c4_average_amount_witness :
    (kpiData TZ.gmt0 exC4).avgAmount
        = (kpiData TZ.gmt0 exC4).totalAmount
          / ((dedupF ((kpiReps exC4).map
                (fun t => localHour TZ.gmt0.offsetMs t.processing_ts))).length : ℚ)
    ∧ (kpiData TZ.gmt0 exC4).avgAmountLabel = "per hour" :=
  (c4_average_amount.1 TZ.gmt0 exC4).1 (by decide)


/-- C5 counterexample: a single approved row whose PSP name is the
empty string: its group has exactly one PSP value, yet the PSP rollup
(which drops empty names) totals 0 while the overall deduplicated
count is 1, refuting the claim as stated. -/
theorem c5_empty_psp_counterexample :
    exC5.map Tx.pspName = [""]
    ∧ pspValues exC5 = []
    ∧ pspTotal exC5 = 0
    ∧ (kpiAccum exC5).1 + (kpiAccum exC5).2.1 = 1
    ∧ pspTotal exC5 ≠ (kpiAccum exC5).1 + (kpiAccum exC5).2.1 := by
  refine ⟨rfl, by decide, by decide, by decide, by decide⟩

/-- C5 (amended): when every merchant-order group carries exactly one
PSP name and that name is non-empty, the sum of approvedCount plus
declinedCount over all per-PSP rollup rows equals the overall
merchant-order-deduplicated approved plus declined count. -/
theorem c5_psp_conservation :
    ∀ l : List Tx,
      (∀ t1 ∈ l, ∀ t2 ∈ l, moidKey t1 = moidKey t2 → t1.pspName = t2.pspName) →
      (∀ t ∈ l, t.pspName ≠ "") →
      pspTotal l = (kpiAccum l).1 + (kpiAccum l).2.1 := by
  intro l hUnif hNE
  have hkey : ∀ k ∈ moidKeys l,
      ((pspValues l).filter (fun p => hasApproved (pspSub l k p))).length
          = (if hasApproved (groupOf k l) then 1 else 0)
      ∧ ((pspValues l).filter
            (fun p => !hasApproved (pspSub l k p) && hasDeclined (pspSub l k p))).length
          = (if !hasApproved (groupOf k l) && hasDeclined (groupOf k l) then 1 else 0) := by
    intro k hk
    obtain ⟨t, ht, htk⟩ : ∃ t ∈ l, moidKey t = k := by
      have h1 : k ∈ l.map moidKey := (mem_dedupF _ _).1 hk
      simpa using h1
    have hgrp : ∀ t2 ∈ groupOf k l, t2.pspName = t.pspName := by
      intro t2 ht2
      rw [groupOf, List.mem_filter] at ht2
      have hk2 : moidKey t2 = k := by simpa using ht2.2
      exact hUnif t2 ht2.1 t ht (hk2.trans htk.symm)
    have hpkmem : t.pspName ∈ pspValues l := by
      rw [pspValues, mem_dedupF, List.mem_filter]
      exact ⟨List.mem_map_of_mem _ ht, by simp [hNE t ht]⟩
    have hsubeq : pspSub l k t.pspName = groupOf k l := by
      rw [pspSub, List.filter_eq_self]
      intro t2 ht2
      simp [hgrp t2 ht2]
    have hsubnil : ∀ p, p ≠ t.pspName → pspSub l k p = [] := by
      intro p hp
      rw [pspSub, List.filter_eq_nil_iff]
      intro t2 ht2
      simp only [beq_iff_eq]
      intro he
      exact hp (he.symm.trans (hgrp t2 ht2))
    constructor
    · have hfe : (pspValues l).filter (fun p => hasApproved (pspSub l k p))
          = (pspValues l).filter
              (fun p => p == t.pspName && hasApproved (groupOf k l)) := by
        apply List.filter_congr
        intro p hp
        by_cases hpe : p = t.pspName
        · subst hpe
          rw [hsubeq]
          simp
        · rw [hsubnil p hpe]
          simp [hasApproved, hpe]
      rw [hfe]
      cases hApp : hasApproved (groupOf k l)
      · simp
      · simp only [Bool.and_true]
        have hnd : (pspValues l).Nodup := nodup_dedupF _
        rw [length_filter_eq_one_of_nodup (pspValues l) hnd _ hpkmem]
        simp
    · have hfe : (pspValues l).filter
            (fun p => !hasApproved (pspSub l k p) && hasDeclined (pspSub l k p))
          = (pspValues l).filter
              (fun p => p == t.pspName
                && (!hasApproved (groupOf k l) && hasDeclined (groupOf k l))) := by
        apply List.filter_congr
        intro p hp
        by_cases hpe : p = t.pspName
        · subst hpe
          rw [hsubeq]
          simp
        · rw [hsubnil p hpe]
          simp [hasApproved, hasDeclined, hpe]
      rw [hfe]
      cases hb : (!hasApproved (groupOf k l) && hasDeclined (groupOf k l))
      · simp
      · simp only [Bool.and_true]
        have hnd : (pspValues l).Nodup := nodup_dedupF _
        rw [length_filter_eq_one_of_nodup (pspValues l) hnd _ hpkmem]
        simp
  have hPC : ∀ p ∈ pspValues l, (pspCounts l p).1 + (pspCounts l p).2
      = ((moidKeys l).filter (fun k => hasApproved (pspSub l k p))).length
        + ((moidKeys l).filter
            (fun k => !hasApproved (pspSub l k p) && hasDeclined (pspSub l k p))).length := by
    intro p _
    rw [pspCounts, tally2_eq]
  rw [pspTotal, List.map_congr_left hPC]
  rw [sum_map_add
    (fun p => ((moidKeys l).filter (fun k => hasApproved (pspSub l k p))).length)
    (fun p => ((moidKeys l).filter
      (fun k => !hasApproved (pspSub l k p) && hasDeclined (pspSub l k p))).length)]
  rw [sum_swap_count (fun p k => hasApproved (pspSub l k p)) (pspValues l) (moidKeys l)]
  rw [sum_swap_count
    (fun p k => !hasApproved (pspSub l k p) && hasDeclined (pspSub l k p))
    (pspValues l) (moidKeys l)]
  rw [List.map_congr_left (fun k hk => (hkey k hk).1)]
  rw [List.map_congr_left (fun k hk => (hkey k hk).2)]
  rw [sum_map_indicator (fun k => hasApproved (groupOf k l)) (moidKeys l)]
  rw [sum_map_indicator
    (fun k => !hasApproved (groupOf k l) && hasDeclined (groupOf k l)) (moidKeys l)]
  rw [kpiAccum_eq]

/-- C5 witness: conservation at a concrete three-row input whose groups
each carry one non-empty PSP. -/
theorem c5_psp_conservation_witness :
    pspTotal exC5w = (kpiAccum exC5w).1 + (kpiAccum exC5w).2.1 :=
  c5_psp_conservation exC5w (by decide) (by decide)


end BP
